import Mathlib

/-!
Verification of the arabic-ocr CLI pipeline (pdf-to-text.js, ocr-images.js,
batch-pdf-to-text.js, file-cleaner.js) against its specification.

The JavaScript sources are shallowly embedded as pure Lean functions.
External collaborators (the pdf2pic rasterizer, the tesseract.js OCR engine,
the filesystem, the clock) are modelled as explicit oracle parameters:
a rasterization outcome, a `recognize` function returning `Except` (a JS
exception becomes `.error msg`), directory listings as `List String`, and
side effects are recorded in an explicit event trace.
-/

deriving instance DecidableEq for Except

/-! ## Generic string helpers (models of node/JS string and path primitives) -/

/-- Concatenation of a list of strings, in order. -/
def strJoin : List String → String
  | [] => ""
  | s :: rest => s ++ strJoin rest

/-- Index of the last occurrence of a dot in a character list, if any. -/
def lastDotIdx : List Char → Option Nat
  | [] => none
  | c :: cs =>
    match lastDotIdx cs with
    | some i => some (i + 1)
    | none => if c = '.' then some 0 else none

/-- Model of node's path.extname for a plain file name (no directory
separators): the substring from the last dot to the end, or the empty string
when there is no dot or the only dot leads the name (dotfiles). -/
def extname (f : String) : String :=
  match lastDotIdx f.data with
  | none => ""
  | some 0 => ""
  | some i => String.mk (f.data.drop i)

/-- Index of the last occurrence of a slash in a character list, if any. -/
def lastSlashIdx : List Char → Option Nat
  | [] => none
  | c :: cs =>
    match lastSlashIdx cs with
    | some i => some (i + 1)
    | none => if c = '/' then some 0 else none

/-- Model of node's path.basename: the part after the last '/'. -/
def basenameOf (p : String) : String :=
  match lastSlashIdx p.data with
  | none => p
  | some i => String.mk (p.data.drop (i + 1))

/-- Model of `path.basename(p, path.extname(p))`: base name with its
extension removed, as used to derive default output names. -/
def basenameNoExt (p : String) : String :=
  let b := basenameOf p
  String.mk (b.data.take (b.data.length - (extname b).data.length))

/-- Model of node's path.join for two plain relative segments on linux. -/
def pathJoin (a b : String) : String := a ++ "/" ++ b

/-- Model of JS `toLowerCase` on one character, for the ASCII range the
program's file extensions live in. -/
def lowerChar (c : Char) : Char :=
  if 65 ≤ c.toNat ∧ c.toNat ≤ 90 then Char.ofNat (c.toNat + 32) else c

/-- Model of JS `String.prototype.toLowerCase` (ASCII range). -/
def lowerStr (s : String) : String := String.mk (s.data.map lowerChar)

/-- Model of JS `String.prototype.startsWith`. -/
def startsWithB (s pre : String) : Bool := pre.data.isPrefixOf s.data

/-- JS whitespace characters relevant to `trim` (ASCII subset). -/
def isWsChar (c : Char) : Bool := c = ' ' || c = '\t' || c = '\n' || c = '\r'

/-- Model of JS `String.prototype.trim`: strip whitespace from both ends. -/
def trimStr (s : String) : String :=
  String.mk (((s.data.dropWhile isWsChar).reverse.dropWhile isWsChar).reverse)

/-- JS `<=` on two strings: lexicographic comparison of the code units. -/
def strLeB (a b : String) : Bool := go a.data b.data
where go : List Char → List Char → Bool
  | [], _ => true
  | _ :: _, [] => false
  | x :: xs, y :: ys => if x = y then go xs ys else Nat.ble x.toNat y.toNat

/-- Insert a string into a sorted list keeping lexicographic order
(stable, as JS Array.prototype.sort is). -/
def insertStr (x : String) : List String → List String
  | [] => [x]
  | y :: ys => if strLeB x y then x :: y :: ys else y :: insertStr x ys

/-- Model of JS `Array.prototype.sort()` on strings: lexicographic order.
(JS compares UTF-16 code units, Lean compares code points; the two agree on
the ASCII page-image names this program sorts.) -/
def sortStrings : List String → List String
  | [] => []
  | x :: xs => insertStr x (sortStrings xs)

/-- Model of JS `String.prototype.replace(pattern, repl)` with a string
pattern: replaces the first occurrence only. -/
def replaceFirstL (pat rep : List Char) : List Char → List Char
  | [] => if pat.isEmpty then rep else []
  | c :: rest =>
    if pat.isPrefixOf (c :: rest) then rep ++ (c :: rest).drop pat.length
    else c :: replaceFirstL pat rep rest

/-- String version of `replaceFirstL`. -/
def replaceFirst (s pat rep : String) : String :=
  String.mk (replaceFirstL pat.data rep.data s.data)

/-- Zero-pad a number to three digits, as `String(n).padStart(3, "0")`. -/
def padZero3 (n : Nat) : String :=
  let s := toString n
  if 3 ≤ s.length then s else String.mk (List.replicate (3 - s.length) '0') ++ s

/-! ## Event trace for the pipeline's side effects -/

/-- Observable side effects of one pipeline run: the rasterizer call, the
call into ocrImages, OCR engine session acquisition (Tesseract.createWorker)
and release (worker.terminate), per-page recognition calls, the output file
write, and removal of the temporary image folder. -/
inductive Ev where
  | rasterize
  | callOcr (folder : String)
  | createWorker
  | recognizeImg (path : String)
  | terminateWorker
  | writeFile (path : String) (content : String)
  | removeFolder (folder : String)
  deriving DecidableEq, Repr

/-- The (path, content) pairs of the write events in a trace. -/
def theWrites (evs : List Ev) : List (String × String) :=
  evs.filterMap (fun e =>
    match e with
    | .writeFile p c => some (p, c)
    | _ => none)

/-! ## ocrImages (identical function in src/cli/ocr-images.js and
src/cli/pdf-to-text.js) -/

/-- The image extensions accepted by the ocrImages listing filter. -/
def imageExts : List String := [".png", ".jpg", ".jpeg", ".tiff", ".bmp"]

/-- The extension filter of ocrImages: extname, lower-cased, in the allowed
list. -/
def hasImageExt (f : String) : Bool := imageExts.contains (lowerStr (extname f))

/-- The file list ocrImages processes: directory listing filtered by allowed
extension, then by the page-name marker at the start, then sorted. -/
def filteredFiles (listing : List String) (pagePre : String) : List String :=
  sortStrings ((listing.filter hasImageExt).filter (fun f => startsWithB f pagePre))

/-- Default pageSeparator option of ocrImages. -/
def defaultSeparator : String := "\n\n=== PAGE {pageNumber} ===\n\n"

/-- The per-page loop of ocrImages: accumulates the output text and the
recognition events, page numbers counted from `i + 1`. A recognition failure
is caught per page: the error marker is appended instead and the loop
continues. -/
def ocrLoop (recognize : String → Except String String)
    (imagesFolder pageSeparator : String) :
    List String → Nat → String × List Ev
  | [], _ => ("", [])
  | f :: rest, i =>
    let pageNumber := i + 1
    let filePath := pathJoin imagesFolder f
    let separator := replaceFirst pageSeparator "{pageNumber}" (toString pageNumber)
    let block :=
      match recognize filePath with
      | .ok t => separator ++ trimStr t ++ "\n"
      | .error m => separator ++ "[ERROR: Could not process this page - " ++ m ++ "]\n"
    let r := ocrLoop recognize imagesFolder pageSeparator rest (i + 1)
    (block ++ r.1, .recognizeImg filePath :: r.2)

/-- Model of ocrImages. Oracles: `folderExists` (fs.existsSync), `listing`
(fs.readdirSync), `mkWorker` (Tesseract.createWorker outcome), `recognize`
(worker.recognize outcome per image path). Returns the function result
(`.ok outputFile`, or the thrown error) plus the event trace. The worker is
created only after the empty-listing check and terminated before the output
write. -/
def ocrImages (folderExists : Bool) (listing : List String)
    (mkWorker : Except String Unit) (recognize : String → Except String String)
    (imagesFolder outputFile language pagePre pageSeparator : String) :
    Except String String × List Ev :=
  if !folderExists then
    (.error ("Images folder not found: " ++ imagesFolder), [])
  else
    let files := filteredFiles listing pagePre
    if files.isEmpty then
      (.error ("No image files found in " ++ imagesFolder), [])
    else
      match mkWorker with
      | .error e => (.error e, [])
      | .ok _ =>
        let r := ocrLoop recognize imagesFolder pageSeparator files 0
        (.ok outputFile,
          .createWorker :: (r.2 ++ [.terminateWorker, .writeFile outputFile r.1]))

/-! ## Specification-side description of the assembled text (from the
spec's words, to be compared with the model) -/

/-- The error marker the spec promises for a failed page. -/
def errorMarker (m : String) : String :=
  "[ERROR: Could not process this page - " ++ m ++ "]"

/-- The separator literal containing the 1-based page number. -/
def specSep (n : Nat) : String := "\n\n=== PAGE " ++ toString n ++ " ===\n\n"

/-- The spec's block for page n of file f: separator, then trimmed
recognized text or the error marker, then a newline. -/
def specBlock (recognize : String → Except String String)
    (imagesFolder : String) (n : Nat) (f : String) : String :=
  specSep n ++
    (match recognize (pathJoin imagesFolder f) with
     | .ok t => trimStr t
     | .error m => errorMarker m) ++ "\n"

/-! ### Helper lemmas -/

theorem replaceFirst_default (s : String) :
    replaceFirst defaultSeparator "{pageNumber}" s =
      "\n\n=== PAGE " ++ s ++ " ===\n\n" := rfl

theorem errorMarker_append (m : String) :
    errorMarker m ++ "\n" =
      "[ERROR: Could not process this page - " ++ m ++ "]\n" := by
  simp only [errorMarker, String.append_assoc]
  rfl

theorem ocrLoop_text (recognize : String → Except String String)
    (imagesFolder : String) (fs : List String) (i : Nat) :
    (ocrLoop recognize imagesFolder defaultSeparator fs i).1 =
      strJoin ((List.enumFrom i fs).map
        (fun p => specBlock recognize imagesFolder (p.1 + 1) p.2)) := by
  induction fs generalizing i with
  | nil => rfl
  | cons f rest ih =>
    simp only [ocrLoop, List.enumFrom, List.map, strJoin, ih (i + 1),
      specBlock, specSep, replaceFirst_default]
    cases recognize (pathJoin imagesFolder f) with
    | ok t => simp [String.append_assoc]
    | error m =>
      simp only [String.append_assoc, errorMarker_append]

theorem ocrLoop_events (recognize : String → Except String String)
    (imagesFolder pageSeparator : String) (fs : List String) (i : Nat) :
    (ocrLoop recognize imagesFolder pageSeparator fs i).2 =
      fs.map (fun f => Ev.recognizeImg (pathJoin imagesFolder f)) := by
  induction fs generalizing i with
  | nil => rfl
  | cons f rest ih =>
    simp only [ocrLoop, List.map, List.cons.injEq, true_and]
    exact ih (i + 1)

theorem enumFrom_pageNumbers {α : Type} (l : List α) (i : Nat) :
    (List.enumFrom i l).map (fun p => p.1 + 1) = List.range' (i + 1) l.length := by
  induction l generalizing i with
  | nil => rfl
  | cons x xs ih => simp [List.enumFrom, List.range', ih]

/-- Unfolding of ocrImages on the successful control path: folder present,
at least one matching image, worker created. -/
theorem ocrImages_ok (listing : List String)
    (recognize : String → Except String String)
    (imagesFolder outputFile language pagePre pageSeparator : String)
    (hne : (filteredFiles listing pagePre).isEmpty = false) :
    ocrImages true listing (.ok ()) recognize imagesFolder outputFile language
        pagePre pageSeparator =
      (.ok outputFile,
        .createWorker ::
          ((filteredFiles listing pagePre).map
              (fun f => Ev.recognizeImg (pathJoin imagesFolder f)) ++
            [.terminateWorker,
             .writeFile outputFile
               (ocrLoop recognize imagesFolder pageSeparator
                 (filteredFiles listing pagePre) 0).1])) := by
  simp [ocrImages, hne, ocrLoop_events]

theorem theWrites_recognize_nil (fs : List String) (folder : String) :
    theWrites (fs.map (fun f => Ev.recognizeImg (pathJoin folder f))) = [] := by
  simp [theWrites, List.filterMap_cons]

theorem filteredFiles_not_empty {listing : List String} {pagePre : String}
    {P : Nat} (hP : 0 < P) (hlen : (filteredFiles listing pagePre).length = P) :
    (filteredFiles listing pagePre).isEmpty = false := by
  cases hf : filteredFiles listing pagePre with
  | nil => rw [hf] at hlen; simp at hlen; omega
  | cons a l => rfl

theorem recog_map_count_create (fs : List String) (folder : String) :
    (fs.map (fun f => Ev.recognizeImg (pathJoin folder f))).count Ev.createWorker = 0 := by
  simp [List.count_eq_zero]

theorem recog_map_count_term (fs : List String) (folder : String) :
    (fs.map (fun f => Ev.recognizeImg (pathJoin folder f))).count Ev.terminateWorker = 0 := by
  simp [List.count_eq_zero]

/-- C2: for an images folder whose filtered file set (allowed image
extension and page-name filter, sorted lexically) has P ≥ 1 entries,
ocrImages writes to outputFile exactly the concatenation of the P blocks in
ascending page order — block n being the separator literal containing n,
then the trimmed recognized text (or the error marker), then a newline —
with page numbers contiguous 1..P, and returns the outputFile path. -/
theorem ocrImages_assembles_numbered_blocks (listing : List String)
    (pagePre imagesFolder outputFile language : String)
    (recognize : String → Except String String) (P : Nat)
    (hP : 0 < P) (hlen : (filteredFiles listing pagePre).length = P) :
    (ocrImages true listing (.ok ()) recognize imagesFolder outputFile language
        pagePre defaultSeparator).1 = .ok outputFile ∧
    theWrites (ocrImages true listing (.ok ()) recognize imagesFolder outputFile
        language pagePre defaultSeparator).2 =
      [(outputFile,
        strJoin ((List.enumFrom 0 (filteredFiles listing pagePre)).map
          (fun p => specBlock recognize imagesFolder (p.1 + 1) p.2)))] ∧
    (List.enumFrom 0 (filteredFiles listing pagePre)).map (fun p => p.1 + 1) =
      List.range' 1 P := by
  have hne := filteredFiles_not_empty hP hlen
  rw [ocrImages_ok listing recognize imagesFolder outputFile language pagePre
    defaultSeparator hne]
  refine ⟨rfl, ?_, ?_⟩
  · simp [theWrites, List.filterMap_append, List.filterMap_cons, ocrLoop_text]
  · simp [enumFrom_pageNumbers, hlen]

/-- Witness for C2: two matching pages among four directory entries, the
first page recognized, the second failing. -/
theorem ocrImages_assembles_numbered_blocks_witness :
    (ocrImages true ["page_002.png", "notes.txt", "page_001.png", "cover.jpeg"]
        (.ok ())
        (fun p => if p = "imgs/page_001.png" then .ok " mrhba " else .error "boom")
        "imgs" "out.txt" "ara" "page_" defaultSeparator).1 = .ok "out.txt" :=
  (ocrImages_assembles_numbered_blocks _ _ _ _ _ _ 2 (by decide) (by decide)).1

/-- C3: per-page recognition failures never abort ocrImages: with every
page's recognition call throwing, it still returns the outputFile path and
writes the P error-marker blocks in ascending contiguous page order. -/
theorem ocrImages_error_pages_do_not_abort (listing : List String)
    (pagePre imagesFolder outputFile language : String)
    (errMsg : String → String) (P : Nat)
    (hP : 0 < P) (hlen : (filteredFiles listing pagePre).length = P) :
    (ocrImages true listing (.ok ()) (fun p => .error (errMsg p)) imagesFolder
        outputFile language pagePre defaultSeparator).1 = .ok outputFile ∧
    theWrites (ocrImages true listing (.ok ()) (fun p => .error (errMsg p))
        imagesFolder outputFile language pagePre defaultSeparator).2 =
      [(outputFile,
        strJoin ((List.enumFrom 0 (filteredFiles listing pagePre)).map
          (fun p => specSep (p.1 + 1) ++
            errorMarker (errMsg (pathJoin imagesFolder p.2)) ++ "\n")))] ∧
    (List.enumFrom 0 (filteredFiles listing pagePre)).map (fun p => p.1 + 1) =
      List.range' 1 P := by
  have hne := filteredFiles_not_empty hP hlen
  rw [ocrImages_ok listing _ imagesFolder outputFile language pagePre
    defaultSeparator hne]
  refine ⟨rfl, ?_, ?_⟩
  · simp [theWrites, List.filterMap_append, List.filterMap_cons, ocrLoop_text,
      specBlock]
  · simp [enumFrom_pageNumbers, hlen]

/-- Witness for C3: a folder where both pages fail recognition. -/
theorem ocrImages_error_pages_do_not_abort_witness :
    (ocrImages true ["page_001.png", "page_002.png"] (.ok ())
        (fun p => .error ("cannot read " ++ p)) "imgs" "out.txt" "ara" "page_"
        defaultSeparator).1 = .ok "out.txt" :=
  (ocrImages_error_pages_do_not_abort _ _ _ _ _
    (fun p => "cannot read " ++ p) 2 (by decide) (by decide)).1

/-- C8: ocrImages acquires at most one OCR engine session for the whole
folder — exactly one when the folder check, the listing check and the worker
creation all pass — and the session is terminated exactly as many times as
it is acquired on every execution (any recognize oracle, so recognition
failures included), and never terminated before it is acquired. -/
theorem ocrImages_session_scoped (folderExists : Bool) (listing : List String)
    (mkWorker : Except String Unit) (recognize : String → Except String String)
    (imagesFolder outputFile language pagePre pageSeparator : String)
    (evs : List Ev)
    (hevs : evs = (ocrImages folderExists listing mkWorker recognize imagesFolder
      outputFile language pagePre pageSeparator).2) :
    evs.count .createWorker = evs.count .terminateWorker ∧
    evs.count .createWorker ≤ 1 ∧
    (evs.count .createWorker = 1 ↔
      folderExists = true ∧ (filteredFiles listing pagePre).isEmpty = false ∧
        mkWorker = Except.ok ()) ∧
    ∀ k, (evs.take k).count Ev.terminateWorker ≤
      (evs.take k).count Ev.createWorker := by
  subst hevs
  cases folderExists with
  | false => simp [ocrImages]
  | true =>
    cases hf : (filteredFiles listing pagePre).isEmpty with
    | true => simp [ocrImages, hf]
    | false =>
      cases mkWorker with
      | error e => simp [ocrImages, hf]
      | ok u =>
        cases u
        rw [ocrImages_ok listing recognize imagesFolder outputFile language
          pagePre pageSeparator hf]
        have hc : ((filteredFiles listing pagePre).map
            (fun f => Ev.recognizeImg (pathJoin imagesFolder f)) ++
            [Ev.terminateWorker,
             Ev.writeFile outputFile
               (ocrLoop recognize imagesFolder pageSeparator
                 (filteredFiles listing pagePre) 0).1]).count Ev.createWorker = 0 :=
          List.count_eq_zero.mpr (by simp)
        have ht : ((filteredFiles listing pagePre).map
            (fun f => Ev.recognizeImg (pathJoin imagesFolder f)) ++
            [Ev.terminateWorker,
             Ev.writeFile outputFile
               (ocrLoop recognize imagesFolder pageSeparator
                 (filteredFiles listing pagePre) 0).1]).count Ev.terminateWorker = 1 := by
          simp [List.count_append, recog_map_count_term, List.count_cons,
            List.count_eq_zero]
        refine ⟨?_, ?_, ?_, ?_⟩
        · rw [List.count_cons_self, hc,
            List.count_cons_of_ne (by simp), ht]
        · rw [List.count_cons_self, hc]
        · rw [List.count_cons_self, hc]
          simp [hf]
        · intro k
          cases k with
          | zero => simp
          | succ k =>
            rw [List.take_succ_cons, List.count_cons_self,
              List.count_cons_of_ne (by simp)]
            have h1 : (((filteredFiles listing pagePre).map
                (fun f => Ev.recognizeImg (pathJoin imagesFolder f)) ++
                [Ev.terminateWorker,
                 Ev.writeFile outputFile
                   (ocrLoop recognize imagesFolder pageSeparator
                     (filteredFiles listing pagePre) 0).1]).take k).count
                Ev.terminateWorker ≤ 1 :=
              le_trans ((List.take_sublist k _).count_le Ev.terminateWorker)
                (le_of_eq ht)
            omega

/-- Witness for C8 at a concrete one-page folder whose recognition fails. -/
theorem ocrImages_session_scoped_witness :
    ((ocrImages true ["page_001.png"] (Except.ok ()) (fun _ => Except.error "boom")
        "imgs" "out.txt" "ara" "page_" defaultSeparator).2).count Ev.createWorker =
      ((ocrImages true ["page_001.png"] (Except.ok ()) (fun _ => Except.error "boom")
        "imgs" "out.txt" "ara" "page_" defaultSeparator).2).count Ev.terminateWorker :=
  (ocrImages_session_scoped true _ _ _ _ _ _ _ _ _ rfl).1

/-! ## convertPdfToImages and convertPdfToText (src/cli/pdf-to-text.js) -/

/-- Names saved by convertPdfToImages' rename loop: the rasterizer's i-th
result (0-based) whose file exists on disk is renamed to the deterministic
`page_{i+1, zero-padded to 3}.{format lower-cased}`; a result whose file is
missing is skipped with a warning and produces no saved image. -/
def savedNames (raster : List Bool) (imageFormat : String) : List String :=
  go raster 0
where go : List Bool → Nat → List String
  | [], _ => []
  | ok :: rest, i =>
    if ok then
      ("page_" ++ padZero3 (i + 1) ++ "." ++ lowerStr imageFormat) :: go rest (i + 1)
    else go rest (i + 1)

/-- Model of convertPdfToImages: validates the PDF exists, resolves the
output folder (the given one, else `{pdfName}_images`), delegates to the
rasterizer (`raster`: `.error` models a thrown bulk conversion, `.ok flags`
one entry per page result stating whether its file exists), renames the
page files to their deterministic zero-padded names and returns the saved
image names with the folder. Zero rasterized pages is NOT an error here. -/
def convertPdfToImages (pdfExists : Bool) (raster : Except String (List Bool))
    (pdfPath : String) (outputFolder : Option String) (imageFormat : String) :
    Except String (List String × String) :=
  if !pdfExists then .error ("PDF file not found: " ++ pdfPath)
  else
    let pdfName := basenameNoExt pdfPath
    let finalOutputFolder := outputFolder.getD (pdfName ++ "_images")
    match raster with
    | .error e => .error e
    | .ok results => .ok (savedNames results imageFormat, finalOutputFolder)

/-- Result of one DocumentPipeline run: the returned value or thrown error,
the side-effect trace, and whether the temporary image folder ended up
removed. -/
structure PipeOut where
  result : Except String String
  events : List Ev
  removedTemp : Bool
  deriving DecidableEq, Repr

/-- Model of convertPdfToText (the DocumentPipeline): step 1 rasterize via
convertPdfToImages, step 2 OCR via ocrImages on the produced folder (whose
listing is the saved image names — the folder was created for this run),
step 3 removal of the temp folder unless keepImages, best-effort: `rmOk`
models whether fs.rmSync succeeds, and a removal failure is only warned
about, never rethrown. A step-1 or step-2 failure is rethrown and no
removal is attempted. -/
def convertPdfToText (pdfExists : Bool) (raster : Except String (List Bool))
    (mkWorker : Except String Unit) (recognize : String → Except String String)
    (rmOk : Bool) (pdfPath : String) (outputText tempImagesFolder : Option String)
    (keepImages : Bool) (imageFormat language : String) : PipeOut :=
  match convertPdfToImages pdfExists raster pdfPath tempImagesFolder imageFormat with
  | .error e => { result := .error e, events := [.rasterize], removedTemp := false }
  | .ok (images, folder) =>
    let pdfName := basenameNoExt pdfPath
    let finalOutputText := outputText.getD (pdfName ++ "_ocr_results.txt")
    let r := ocrImages true images mkWorker recognize folder finalOutputText
      language "page_" defaultSeparator
    match r.1 with
    | .error e =>
        { result := .error e, events := .rasterize :: .callOcr folder :: r.2,
          removedTemp := false }
    | .ok resultFile =>
        if keepImages then
          { result := .ok resultFile,
            events := .rasterize :: .callOcr folder :: r.2, removedTemp := false }
        else
          { result := .ok resultFile,
            events := (.rasterize :: .callOcr folder :: r.2) ++ [.removeFolder folder],
            removedTemp := rmOk }

theorem ocrImages_empty_listing (mkWorker : Except String Unit)
    (recognize : String → Except String String)
    (imagesFolder outputFile language pagePre pageSeparator : String) :
    ocrImages true [] mkWorker recognize imagesFolder outputFile language
      pagePre pageSeparator =
      (.error ("No image files found in " ++ imagesFolder), []) := rfl

theorem ocrImages_no_removeFolder (folderExists : Bool) (listing : List String)
    (mkWorker : Except String Unit) (recognize : String → Except String String)
    (imagesFolder outputFile language pagePre pageSeparator f : String) :
    Ev.removeFolder f ∉
      (ocrImages folderExists listing mkWorker recognize imagesFolder outputFile
        language pagePre pageSeparator).2 := by
  cases folderExists with
  | false => simp [ocrImages]
  | true =>
    cases hf : (filteredFiles listing pagePre).isEmpty with
    | true => simp [ocrImages, hf]
    | false =>
      cases mkWorker with
      | error e => simp [ocrImages, hf]
      | ok u =>
        cases u
        rw [ocrImages_ok listing recognize imagesFolder outputFile language
          pagePre pageSeparator hf]
        simp

/-- Unfolding of convertPdfToText when rasterization succeeds but yields
zero saved page images: ocrImages is entered on the empty folder and throws
its no-images error before any OCR engine activity. -/
theorem convertPdfToText_zero_pages_eq (pdfPath imageFormat language : String)
    (outputText tempImagesFolder : Option String) (keepImages : Bool)
    (mkWorker : Except String Unit) (recognize : String → Except String String)
    (rmOk : Bool) (rs : List Bool) (hsaved : savedNames rs imageFormat = []) :
    convertPdfToText true (.ok rs) mkWorker recognize rmOk pdfPath outputText
        tempImagesFolder keepImages imageFormat language =
      { result := .error ("No image files found in " ++
          (tempImagesFolder.getD (basenameNoExt pdfPath ++ "_images"))),
        events := [.rasterize,
          .callOcr (tempImagesFolder.getD (basenameNoExt pdfPath ++ "_images"))],
        removedTemp := false } := by
  simp [convertPdfToText, convertPdfToImages, hsaved, ocrImages_empty_listing]

/-- C1 counterexample: the claim says that for a document rasterizing to
zero page images, ocrImages is never invoked. On the code, with the
rasterizer returning an empty bulk result, the pipeline still calls
ocrImages on the temporary folder (the failure is raised inside ocrImages):
the call event is in this concrete run's trace. -/
theorem convertPdfToText_zero_pages_calls_ocrImages :
    Ev.callOcr "doc_images" ∈
      (convertPdfToText true (.ok []) (.ok ()) (fun _ => .ok "") true "doc.pdf"
        none none false "png" "ara").events := by decide

/-- C1 (amended): for every run whose rasterization step succeeds with zero
saved page images, convertPdfToText propagates the no-images failure
(`No image files found in <folder>`) and the OCR engine is never engaged —
no worker session is created and no page recognition occurs — although the
ocrImages function itself IS invoked on the temporary folder before the
failure is detected; the temp folder is not removed. -/
theorem convertPdfToText_zero_pages_no_recognizer (pdfPath imageFormat language : String)
    (outputText tempImagesFolder : Option String) (keepImages : Bool)
    (mkWorker : Except String Unit) (recognize : String → Except String String)
    (rmOk : Bool) (rs : List Bool) (po : PipeOut)
    (hsaved : savedNames rs imageFormat = [])
    (hpo : po = convertPdfToText true (.ok rs) mkWorker recognize rmOk pdfPath
      outputText tempImagesFolder keepImages imageFormat language) :
    po.result = .error ("No image files found in " ++
      (tempImagesFolder.getD (basenameNoExt pdfPath ++ "_images"))) ∧
    Ev.callOcr (tempImagesFolder.getD (basenameNoExt pdfPath ++ "_images")) ∈
      po.events ∧
    Ev.createWorker ∉ po.events ∧
    (∀ p, Ev.recognizeImg p ∉ po.events) ∧
    po.removedTemp = false := by
  subst hpo
  rw [convertPdfToText_zero_pages_eq pdfPath imageFormat language outputText
    tempImagesFolder keepImages mkWorker recognize rmOk rs hsaved]
  simp

/-- Witness for the amended C1 at a concrete empty rasterization. -/
theorem convertPdfToText_zero_pages_no_recognizer_witness :
    (convertPdfToText true (.ok []) (.ok ()) (fun _ => .ok "") true "doc.pdf"
      none none false "png" "ara").result =
      .error ("No image files found in " ++
        ((none : Option String).getD (basenameNoExt "doc.pdf" ++ "_images"))) :=
  (convertPdfToText_zero_pages_no_recognizer "doc.pdf" "png" "ara" none none
    false (.ok ()) (fun _ => .ok "") true [] _ rfl rfl).1

/-- C7: convertPdfToText attempts removal of the temporary image folder
exactly when recognition succeeded and keepImages is false; the folder is
actually removed exactly when additionally fs.rmSync succeeds, and a removal
failure is not escalated (the pipeline result does not depend on it); on any
rasterization or recognition failure the error propagates and no removal is
attempted. -/
theorem convertPdfToText_cleanup (pdfExists : Bool)
    (raster : Except String (List Bool)) (mkWorker : Except String Unit)
    (recognize : String → Except String String) (rmOk : Bool)
    (pdfPath : String) (outputText tempImagesFolder : Option String)
    (keepImages : Bool) (imageFormat language : String) (po : PipeOut)
    (hpo : po = convertPdfToText pdfExists raster mkWorker recognize rmOk pdfPath
      outputText tempImagesFolder keepImages imageFormat language) :
    (po.removedTemp = (po.result.isOk && !keepImages && rmOk)) ∧
    ((∃ f, Ev.removeFolder f ∈ po.events) ↔
      (po.result.isOk = true ∧ keepImages = false)) ∧
    (po.result.isOk = false →
      po.removedTemp = false ∧ ∀ f, Ev.removeFolder f ∉ po.events) ∧
    po.result = (convertPdfToText pdfExists raster mkWorker recognize true pdfPath
      outputText tempImagesFolder keepImages imageFormat language).result := by
  subst hpo
  cases pdfExists with
  | false => simp [convertPdfToText, convertPdfToImages, Except.isOk, Except.toBool]
  | true =>
    cases raster with
    | error e => simp [convertPdfToText, convertPdfToImages, Except.isOk, Except.toBool]
    | ok rs =>
      simp only [convertPdfToText, convertPdfToImages, Bool.not_true,
        Bool.false_eq_true, if_false]
      cases hr : (ocrImages true (savedNames rs imageFormat) mkWorker recognize
          (tempImagesFolder.getD (basenameNoExt pdfPath ++ "_images"))
          (outputText.getD (basenameNoExt pdfPath ++ "_ocr_results.txt"))
          language "page_" defaultSeparator).1 with
      | error e => simp [hr, Except.isOk, Except.toBool, ocrImages_no_removeFolder]
      | ok resultFile =>
        cases keepImages with
        | true => simp [hr, Except.isOk, Except.toBool, ocrImages_no_removeFolder]
        | false => simp [hr, Except.isOk, Except.toBool, ocrImages_no_removeFolder]

/-- Witness for C7: a one-page document recognized successfully with
keepImages false and a succeeding removal. -/
theorem convertPdfToText_cleanup_witness :
    (convertPdfToText true (.ok [true]) (.ok ()) (fun _ => .ok "text") true
        "doc.pdf" none none false "png" "ara").removedTemp =
      ((convertPdfToText true (.ok [true]) (.ok ()) (fun _ => .ok "text") true
        "doc.pdf" none none false "png" "ara").result.isOk && !false && true) :=
  (convertPdfToText_cleanup true (.ok [true]) (.ok ()) (fun _ => .ok "text")
    true "doc.pdf" none none false "png" "ara" _ rfl).1

/-! ## batchProcessPdfs (src/cli/batch-pdf-to-text.js) -/

/-- One resolved input document of a batch. -/
structure PdfEntry where
  fullPath : String
  filename : String
  basename : String
  deriving DecidableEq, Repr

/-- A successful per-document outcome (a `results` entry). -/
structure DocSuccess where
  input : String
  output : String
  duration : String
  deriving DecidableEq, Repr

/-- A failed per-document outcome (an `errors` entry). -/
structure DocFailure where
  input : String
  error : String
  duration : String
  deriving DecidableEq, Repr

/-- The consecutive chunks visited by the batch loop
`for (let i = 0; i < n; i += concurrent) slice(i, i + concurrent)`.
(The JS loop does not terminate when concurrent = 0 — the CLI default is 1 —
so the theorems assume 0 < c, where this recursion computes those slices.) -/
def chunksOf {α : Type} (c : Nat) : List α → List (List α)
  | [] => []
  | x :: xs => (x :: xs).take c :: chunksOf c (xs.drop (c - 1))
  termination_by l => l.length
  decreasing_by simp [List.length_drop]; omega

theorem chunksOf_flatten {α : Type} (c : Nat) (hc : 0 < c) :
    (l : List α) → (chunksOf c l).flatten = l
  | [] => by simp [chunksOf]
  | x :: xs => by
      obtain ⟨k, rfl⟩ : ∃ k, c = k + 1 := ⟨c - 1, by omega⟩
      simp only [chunksOf, List.flatten_cons]
      rw [chunksOf_flatten (k + 1) hc (xs.drop (k + 1 - 1))]
      simp only [List.take_succ_cons, Nat.add_sub_cancel, List.cons_append]
      rw [List.take_append_drop]
  termination_by l => l.length
  decreasing_by simp [List.length_drop]; omega

theorem chunksOf_mem_length {α : Type} (c : Nat) (hc : 0 < c) :
    (l : List α) → ∀ ch ∈ chunksOf c l, 0 < ch.length ∧ ch.length ≤ c
  | [] => by simp [chunksOf]
  | x :: xs => by
      intro ch hch
      simp only [chunksOf, List.mem_cons] at hch
      rcases hch with rfl | hch
      · refine ⟨?_, ?_⟩ <;> simp [List.length_take] <;> omega
      · exact chunksOf_mem_length c hc (xs.drop (c - 1)) ch hch
  termination_by l => l.length
  decreasing_by simp [List.length_drop]; omega

theorem chunksOf_dropLast_length {α : Type} (c : Nat) (hc : 0 < c) :
    (l : List α) → ∀ ch ∈ (chunksOf c l).dropLast, ch.length = c
  | [] => by simp [chunksOf]
  | x :: xs => by
      intro ch hch
      cases hrest : chunksOf c (xs.drop (c - 1)) with
      | nil => simp [chunksOf, hrest] at hch
      | cons r rs =>
          have hdrop : xs.drop (c - 1) ≠ [] := by
            intro h0
            rw [h0] at hrest
            simp [chunksOf] at hrest
          have hlen : c - 1 < xs.length := by
            by_contra hle
            exact hdrop (List.drop_eq_nil_of_le (by omega))
          simp only [chunksOf, hrest, List.dropLast_cons₂, List.mem_cons] at hch
          rcases hch with rfl | hch
          · simp [List.length_take]
            omega
          · have := chunksOf_dropLast_length c hc (xs.drop (c - 1)) ch
            rw [hrest] at this
            exact this hch
  termination_by l => l.length
  decreasing_by simp [List.length_drop]; omega

/-- Scheduling events of a batch run: a document pipeline being launched,
and one finishing. -/
inductive BEv (α : Type) where
  | start (p : α)
  | finish (p : α)
  deriving DecidableEq, Repr

/-- Launch events in a trace. -/
def countStarts {α : Type} (tr : List (BEv α)) : Nat :=
  tr.countP (fun e => match e with | .start _ => true | .finish _ => false)

/-- Finish events in a trace. -/
def countFinishes {α : Type} (tr : List (BEv α)) : Nat :=
  tr.countP (fun e => match e with | .start _ => false | .finish _ => true)

/-- The schedule trace of the chunked batch loop: for each chunk, all its
pipelines are launched (Promise creation happens in list order), then the
orchestrator awaits the whole chunk — the pipelines finish in an arbitrary
completion order, `perm k` for chunk k — before the next chunk begins. -/
def chunkTrace {α : Type} (perm : Nat → List α → List α) :
    Nat → List (List α) → List (BEv α)
  | _, [] => []
  | k, ch :: rest =>
      ch.map .start ++ (perm k ch).map .finish ++ chunkTrace perm (k + 1) rest

/-- The full schedule trace of batchProcessPdfs' processing loop. -/
def batchTrace {α : Type} (c : Nat) (pdfs : List α)
    (perm : Nat → List α → List α) : List (BEv α) :=
  chunkTrace perm 0 (chunksOf c pdfs)

theorem countStarts_append {α : Type} (a b : List (BEv α)) :
    countStarts (a ++ b) = countStarts a + countStarts b :=
  List.countP_append _ _ _

theorem countFinishes_append {α : Type} (a b : List (BEv α)) :
    countFinishes (a ++ b) = countFinishes a + countFinishes b :=
  List.countP_append _ _ _

theorem countStarts_cons_start {α : Type} (x : α) (t : List (BEv α)) :
    countStarts (BEv.start x :: t) = countStarts t + 1 := by
  simp [countStarts, List.countP_cons]

theorem countStarts_cons_finish {α : Type} (x : α) (t : List (BEv α)) :
    countStarts (BEv.finish x :: t) = countStarts t := by
  simp [countStarts, List.countP_cons]

theorem countFinishes_cons_start {α : Type} (x : α) (t : List (BEv α)) :
    countFinishes (BEv.start x :: t) = countFinishes t := by
  simp [countFinishes, List.countP_cons]

theorem countFinishes_cons_finish {α : Type} (x : α) (t : List (BEv α)) :
    countFinishes (BEv.finish x :: t) = countFinishes t + 1 := by
  simp [countFinishes, List.countP_cons]

theorem countStarts_take_starts {α : Type} (l : List α) (n : Nat) :
    countStarts ((l.map BEv.start).take n) = min n l.length := by
  induction l generalizing n with
  | nil => simp [countStarts]
  | cons x xs ih =>
    cases n with
    | zero => simp [countStarts]
    | succ n =>
      rw [List.map_cons, List.take_succ_cons, countStarts_cons_start, ih n,
        List.length_cons]
      omega

theorem countFinishes_take_starts {α : Type} (l : List α) (n : Nat) :
    countFinishes ((l.map BEv.start).take n) = 0 := by
  induction l generalizing n with
  | nil => simp [countFinishes]
  | cons x xs ih =>
    cases n with
    | zero => simp [countFinishes]
    | succ n =>
      rw [List.map_cons, List.take_succ_cons, countFinishes_cons_start, ih n]

theorem countStarts_take_finishes {α : Type} (l : List α) (n : Nat) :
    countStarts ((l.map BEv.finish).take n) = 0 := by
  induction l generalizing n with
  | nil => simp [countStarts]
  | cons x xs ih =>
    cases n with
    | zero => simp [countStarts]
    | succ n =>
      rw [List.map_cons, List.take_succ_cons, countStarts_cons_finish, ih n]

theorem countFinishes_take_finishes {α : Type} (l : List α) (n : Nat) :
    countFinishes ((l.map BEv.finish).take n) = min n l.length := by
  induction l generalizing n with
  | nil => simp [countFinishes]
  | cons x xs ih =>
    cases n with
    | zero => simp [countFinishes]
    | succ n =>
      rw [List.map_cons, List.take_succ_cons, countFinishes_cons_finish, ih n,
        List.length_cons]
      omega

/-- Every prefix of the chunked schedule has at most `c` more launches than
finishes, provided every chunk is at most `c` wide and each chunk's finish
order is a rearrangement of the chunk. -/
theorem chunkTrace_prefix_bound {α : Type} (c : Nat)
    (perm : Nat → List α → List α)
    (hperm : ∀ k ch, (perm k ch).length = ch.length) :
    ∀ (chs : List (List α)) (k n : Nat), (∀ ch ∈ chs, ch.length ≤ c) →
      countStarts ((chunkTrace perm k chs).take n) ≤
        countFinishes ((chunkTrace perm k chs).take n) + c := by
  intro chs
  induction chs with
  | nil =>
    intro k n h
    simp [chunkTrace, countStarts, countFinishes]
  | cons ch rest ih =>
    intro k n h
    have ha : ch.length ≤ c := h ch (by simp)
    have hrest : ∀ x ∈ rest, x.length ≤ c := fun x hx => h x (by simp [hx])
    simp only [chunkTrace]
    rw [List.take_append_eq_append_take, List.take_append_eq_append_take,
      countStarts_append, countStarts_append, countFinishes_append,
      countFinishes_append, countStarts_take_starts, countFinishes_take_starts,
      countStarts_take_finishes, countFinishes_take_finishes,
      List.length_append, List.length_map, List.length_map, hperm k ch]
    rcases le_or_lt (ch.length + ch.length) n with h2 | h2
    · have hs := ih (k + 1) (n - (ch.length + ch.length)) hrest
      have hm1 : min n ch.length = ch.length := Nat.min_eq_right (by omega)
      have hm2 : min (n - ch.length) ch.length = ch.length :=
        Nat.min_eq_right (by omega)
      omega
    · have hzero : n - (ch.length + ch.length) = 0 := by omega
      rw [hzero]
      simp only [List.take_zero]
      have hm1 : min n ch.length ≤ ch.length := Nat.min_le_right _ _
      have hm2 : min n ch.length ≤ n := Nat.min_le_left _ _
      have hm3 : min (n - ch.length) ch.length = min (n - ch.length) ch.length := rfl
      simp [countStarts, countFinishes]
      omega

/-- C9: batchProcessPdfs partitions the resolved document list into
consecutive chunks of size concurrencyLimit — the chunks concatenate back to
the input, every chunk is nonempty with at most concurrencyLimit entries,
and every chunk except possibly the last has exactly concurrencyLimit — and,
whatever per-chunk completion order the concurrently launched pipelines
finish in, every prefix of the schedule trace has at most concurrencyLimit
more launches than finishes: at most concurrencyLimit document pipelines
(hence OCR sessions) are in flight at any time. -/
theorem batchProcessPdfs_bounded_concurrency (c : Nat) (pdfs : List PdfEntry)
    (perm : Nat → List PdfEntry → List PdfEntry) (hc : 0 < c)
    (hperm : ∀ k ch, (perm k ch).Perm ch) :
    (chunksOf c pdfs).flatten = pdfs ∧
    (∀ ch ∈ chunksOf c pdfs, 0 < ch.length ∧ ch.length ≤ c) ∧
    (∀ ch ∈ (chunksOf c pdfs).dropLast, ch.length = c) ∧
    ∀ n, countStarts ((batchTrace c pdfs perm).take n) ≤
      countFinishes ((batchTrace c pdfs perm).take n) + c := by
  refine ⟨chunksOf_flatten c hc pdfs, chunksOf_mem_length c hc pdfs,
    chunksOf_dropLast_length c hc pdfs, ?_⟩
  intro n
  exact chunkTrace_prefix_bound c perm (fun k ch => (hperm k ch).length_eq)
    (chunksOf c pdfs) 0 n (fun ch hch => (chunksOf_mem_length c hc pdfs ch hch).2)

/-- Witness for C9: three documents, concurrency 2, each chunk finishing in
reverse launch order. -/
theorem batchProcessPdfs_bounded_concurrency_witness :
    (chunksOf 2 [(⟨"in/a.pdf", "a.pdf", "a"⟩ : PdfEntry),
      ⟨"in/b.pdf", "b.pdf", "b"⟩, ⟨"in/c.pdf", "c.pdf", "c"⟩]).flatten =
      [(⟨"in/a.pdf", "a.pdf", "a"⟩ : PdfEntry),
       ⟨"in/b.pdf", "b.pdf", "b"⟩, ⟨"in/c.pdf", "c.pdf", "c"⟩] :=
  (batchProcessPdfs_bounded_concurrency 2 _ (fun _ ch => ch.reverse)
    (by decide) (fun _ ch => ch.reverse_perm)).1

/-- The error message of a failed conversion (only consulted on failures). -/
def errMsgOf : Except String Unit → String
  | .ok _ => ""
  | .error m => m

/-- Per-document processing of one chunk, modelled in launch order (the
collection order inside a chunk does not affect any counted or listed fact
below). `convert` is the convertPdfToText outcome oracle per fullPath — a
throw is caught and pushed onto `errors` instead of aborting — and `dur`
gives each document's elapsed-time string (the clock is external). -/
def processChunk (convert : String → Except String Unit) (outputFolder : String)
    (dur : String → String) :
    List PdfEntry → List DocSuccess × List DocFailure
  | [] => ([], [])
  | p :: rest =>
    let outputTextFile := pathJoin outputFolder (p.basename ++ "_ocr.txt")
    let r := processChunk convert outputFolder dur rest
    match convert p.fullPath with
    | .ok _ => (⟨p.filename, outputTextFile, dur p.filename⟩ :: r.1, r.2)
    | .error m => (r.1, ⟨p.filename, m, dur p.filename⟩ :: r.2)

/-- All chunks processed in sequence, outcomes appended chunk after chunk. -/
def processChunks (convert : String → Except String Unit) (outputFolder : String)
    (dur : String → String) :
    List (List PdfEntry) → List DocSuccess × List DocFailure
  | [] => ([], [])
  | ch :: rest =>
    let a := processChunk convert outputFolder dur ch
    let b := processChunks convert outputFolder dur rest
    (a.1 ++ b.1, a.2 ++ b.2)

/-- The options bag of batchProcessPdfs after defaulting. -/
structure BatchOpts where
  outputFolder : String
  keepImages : Bool
  imageFormat : String
  density : Nat
  language : String
  concurrent : Nat
  deriving Repr

/-- Clock-derived strings of generateSummary. The processing date and the
floating-point percentage/duration formatting (toFixed on JS numbers) are
external to the model: no claim concerns their numeric text. -/
structure SummaryCtx where
  dateStr : String
  rateStr : String
  totalDurStr : String
  avgDurStr : String
  deriving Repr

/-- The SUCCESSFUL CONVERSIONS items of generateSummary (index from i). -/
def succItems : Nat → List DocSuccess → String
  | _, [] => ""
  | i, r :: rest =>
      toString (i + 1) ++ ". " ++ r.input ++ "\n" ++
      "   Output: " ++ basenameOf r.output ++ "\n" ++
      "   Duration: " ++ r.duration ++ "s\n\n" ++ succItems (i + 1) rest

/-- The FAILED CONVERSIONS items of generateSummary (index from i). -/
def failItems : Nat → List DocFailure → String
  | _, [] => ""
  | i, e :: rest =>
      toString (i + 1) ++ ". " ++ e.input ++ "\n" ++
      "   Error: " ++ e.error ++ "\n" ++
      "   Duration: " ++ e.duration ++ "s\n\n" ++ failItems (i + 1) rest

/-- Model of generateSummary: fixed header with aggregate counts, settings
echo, then the itemized success and failure sections (each present only
when nonempty). -/
def generateSummary (results : List DocSuccess) (errors : List DocFailure)
    (opts : BatchOpts) (ctx : SummaryCtx) : String :=
  let totalFiles := results.length + errors.length
  let header :=
    "BATCH PDF TO TEXT CONVERSION SUMMARY\n" ++
    "=====================================\n\n" ++
    "Processing Date: " ++ ctx.dateStr ++ "\n" ++
    "Total Files: " ++ toString totalFiles ++ "\n" ++
    "Successful: " ++ toString results.length ++ "\n" ++
    "Failed: " ++ toString errors.length ++ "\n" ++
    "Success Rate: " ++ ctx.rateStr ++ "%\n" ++
    "Total Duration: " ++ ctx.totalDurStr ++ " seconds\n" ++
    "Average per file: " ++ ctx.avgDurStr ++ " seconds\n\n" ++
    "SETTINGS:\n" ++ "---------\n" ++
    "Language: " ++ opts.language ++ "\n" ++
    "Image Format: " ++ opts.imageFormat ++ "\n" ++
    "DPI: " ++ toString opts.density ++ "\n" ++
    "Keep Images: " ++ (if opts.keepImages then "Yes" else "No") ++ "\n" ++
    "Concurrent: " ++ toString opts.concurrent ++ "\n\n"
  let succSec :=
    if 0 < results.length then
      "SUCCESSFUL CONVERSIONS:\n" ++ "----------------------\n" ++
        succItems 0 results
    else ""
  let failSec :=
    if 0 < errors.length then
      "FAILED CONVERSIONS:\n" ++ "------------------\n" ++ failItems 0 errors
    else ""
  header ++ succSec ++ failSec

/-- The outcome of batchProcessPdfs: collected results and errors, and the
summary report (fixed filename inside the batch output folder). -/
structure BatchOut where
  results : List DocSuccess
  errors : List DocFailure
  summaryFile : String
  summaryText : String
  deriving Repr

/-- Model of batchProcessPdfs from the resolved document list on: processes
the documents chunk by chunk with bounded width, then always writes the
summary report to the fixed filename and returns the collected outcomes.
(Input resolution — directory scan, single file, InvalidInput — happens
before this point and no claim depends on it.) -/
def batchProcessPdfs (convert : String → Except String Unit) (opts : BatchOpts)
    (ctx : SummaryCtx) (dur : String → String) (pdfFiles : List PdfEntry) :
    Except String BatchOut :=
  if pdfFiles.isEmpty then
    .error "No PDF files found in the specified location"
  else
    let pr := processChunks convert opts.outputFolder dur
      (chunksOf opts.concurrent pdfFiles)
    let summaryFile := pathJoin opts.outputFolder "batch_processing_summary.txt"
    let summary := generateSummary pr.1 pr.2 opts ctx
    .ok ⟨pr.1, pr.2, summaryFile, summary⟩

/-- The successes the batch must collect (spec side): the documents whose
pipeline succeeds, in input order, each mapped to its fixed output name. -/
def batchSuccesses (convert : String → Except String Unit)
    (outputFolder : String) (dur : String → String)
    (pdfFiles : List PdfEntry) : List DocSuccess :=
  (pdfFiles.filter (fun p => (convert p.fullPath).isOk)).map
    (fun p => ⟨p.filename, pathJoin outputFolder (p.basename ++ "_ocr.txt"),
      dur p.filename⟩)

/-- The failures the batch must collect (spec side): the documents whose
pipeline throws, in input order, each with its filename and error message. -/
def batchFailures (convert : String → Except String Unit)
    (dur : String → String) (pdfFiles : List PdfEntry) : List DocFailure :=
  (pdfFiles.filter (fun p => !(convert p.fullPath).isOk)).map
    (fun p => ⟨p.filename, errMsgOf (convert p.fullPath), dur p.filename⟩)

theorem processChunk_eq (convert : String → Except String Unit)
    (outputFolder : String) (dur : String → String) (l : List PdfEntry) :
    processChunk convert outputFolder dur l =
      (batchSuccesses convert outputFolder dur l, batchFailures convert dur l) := by
  induction l with
  | nil => rfl
  | cons p rest ih =>
    simp only [processChunk, ih, batchSuccesses, batchFailures, List.filter_cons]
    cases h : convert p.fullPath with
    | ok u => simp [h, errMsgOf, Except.isOk, Except.toBool]
    | error m => simp [h, errMsgOf, Except.isOk, Except.toBool]

theorem processChunks_eq (convert : String → Except String Unit)
    (outputFolder : String) (dur : String → String)
    (chs : List (List PdfEntry)) :
    processChunks convert outputFolder dur chs =
      (batchSuccesses convert outputFolder dur chs.flatten,
       batchFailures convert dur chs.flatten) := by
  induction chs with
  | nil => rfl
  | cons ch rest ih =>
    simp only [processChunks, ih, processChunk_eq, List.flatten_cons,
      batchSuccesses, batchFailures, List.filter_append, List.map_append]

theorem filter_partition_length {α : Type} (p : α → Bool) (l : List α) :
    (l.filter p).length + (l.filter (fun a => !(p a))).length = l.length := by
  induction l with
  | nil => rfl
  | cons x xs ih =>
    by_cases h : p x = true <;> simp [List.filter_cons, h, ← ih] <;> omega

theorem failItems_contains_input (e : DocFailure) :
    ∀ (errors : List DocFailure), e ∈ errors → ∀ i,
      ∃ pre post, failItems i errors = pre ++ e.input ++ post := by
  intro errors
  induction errors with
  | nil => intro he; cases he
  | cons f rest ih =>
    intro he i
    rcases List.mem_cons.mp he with rfl | hmem
    · refine ⟨toString (i + 1) ++ ". ",
        "\n" ++ "   Error: " ++ e.error ++ "\n" ++ "   Duration: " ++
          e.duration ++ "s\n\n" ++ failItems (i + 1) rest, ?_⟩
      simp only [failItems]
      simp [String.append_assoc]
    · obtain ⟨pre, post, h⟩ := ih hmem (i + 1)
      refine ⟨toString (i + 1) ++ ". " ++ f.input ++ "\n" ++ "   Error: " ++
        f.error ++ "\n" ++ "   Duration: " ++ f.duration ++ "s\n\n" ++ pre,
        post, ?_⟩
      simp only [failItems, h]
      simp [String.append_assoc]

theorem failItems_contains_error (e : DocFailure) :
    ∀ (errors : List DocFailure), e ∈ errors → ∀ i,
      ∃ pre post, failItems i errors = pre ++ e.error ++ post := by
  intro errors
  induction errors with
  | nil => intro he; cases he
  | cons f rest ih =>
    intro he i
    rcases List.mem_cons.mp he with rfl | hmem
    · refine ⟨toString (i + 1) ++ ". " ++ e.input ++ "\n" ++ "   Error: ",
        "\n" ++ "   Duration: " ++ e.duration ++ "s\n\n" ++
          failItems (i + 1) rest, ?_⟩
      simp only [failItems]
      simp [String.append_assoc]
    · obtain ⟨pre, post, h⟩ := ih hmem (i + 1)
      refine ⟨toString (i + 1) ++ ". " ++ f.input ++ "\n" ++ "   Error: " ++
        f.error ++ "\n" ++ "   Duration: " ++ f.duration ++ "s\n\n" ++ pre,
        post, ?_⟩
      simp only [failItems, h]
      simp [String.append_assoc]

theorem exists_contains_append_left (A : String) {s x : String}
    (h : ∃ pre post, s = pre ++ x ++ post) :
    ∃ pre post, A ++ s = pre ++ x ++ post := by
  obtain ⟨pre, post, rfl⟩ := h
  exact ⟨A ++ pre, post, by simp [String.append_assoc]⟩

theorem generateSummary_contains_input (results : List DocSuccess)
    (errors : List DocFailure) (opts : BatchOpts) (ctx : SummaryCtx)
    (e : DocFailure) (he : e ∈ errors) :
    ∃ pre post, generateSummary results errors opts ctx = pre ++ e.input ++ post := by
  have hlen : 0 < errors.length := List.length_pos.mpr (by rintro rfl; cases he)
  have h := failItems_contains_input e errors he 0
  simp only [generateSummary, if_pos hlen]
  exact exists_contains_append_left _ (exists_contains_append_left _ h)

theorem generateSummary_contains_error (results : List DocSuccess)
    (errors : List DocFailure) (opts : BatchOpts) (ctx : SummaryCtx)
    (e : DocFailure) (he : e ∈ errors) :
    ∃ pre post, generateSummary results errors opts ctx = pre ++ e.error ++ post := by
  have hlen : 0 < errors.length := List.length_pos.mpr (by rintro rfl; cases he)
  have h := failItems_contains_error e errors he 0
  simp only [generateSummary, if_pos hlen]
  exact exists_contains_append_left _ (exists_contains_append_left _ h)

/-- C4: every individual document failure in a batch is caught and becomes
an errors entry without aborting the batch: for any nonempty resolved
document list, any concurrency ≥ 1 and any per-document pipeline oracle,
batchProcessPdfs returns the successes and failures partitioning the input
in order, the summary report goes to the fixed filename
batch_processing_summary.txt inside the batch output folder even when some
documents failed, and the report lists every failed document's filename and
its error message. -/
theorem batchProcessPdfs_isolates_failures (convert : String → Except String Unit)
    (opts : BatchOpts) (ctx : SummaryCtx) (dur : String → String)
    (pdfFiles : List PdfEntry) (hne : pdfFiles ≠ []) (hc : 0 < opts.concurrent) :
    batchProcessPdfs convert opts ctx dur pdfFiles =
      .ok ⟨batchSuccesses convert opts.outputFolder dur pdfFiles,
           batchFailures convert dur pdfFiles,
           pathJoin opts.outputFolder "batch_processing_summary.txt",
           generateSummary (batchSuccesses convert opts.outputFolder dur pdfFiles)
             (batchFailures convert dur pdfFiles) opts ctx⟩ ∧
    (batchSuccesses convert opts.outputFolder dur pdfFiles).length +
      (batchFailures convert dur pdfFiles).length = pdfFiles.length ∧
    ∀ e ∈ batchFailures convert dur pdfFiles,
      (∃ pre post,
        generateSummary (batchSuccesses convert opts.outputFolder dur pdfFiles)
          (batchFailures convert dur pdfFiles) opts ctx =
          pre ++ e.input ++ post) ∧
      (∃ pre post,
        generateSummary (batchSuccesses convert opts.outputFolder dur pdfFiles)
          (batchFailures convert dur pdfFiles) opts ctx =
          pre ++ e.error ++ post) := by
  refine ⟨?_, ?_, ?_⟩
  · have hemp : pdfFiles.isEmpty = false := by
      cases pdfFiles with
      | nil => exact absurd rfl hne
      | cons a l => rfl
    simp only [batchProcessPdfs, hemp, Bool.false_eq_true, if_false,
      processChunks_eq, chunksOf_flatten opts.concurrent hc pdfFiles]
  · simp only [batchSuccesses, batchFailures, List.length_map]
    exact filter_partition_length _ pdfFiles
  · intro e he
    exact ⟨generateSummary_contains_input _ _ opts ctx e he,
      generateSummary_contains_error _ _ opts ctx e he⟩

/-- Witness input for C4: a batch of three PDFs of which the second fails
with a missing source. -/
def convW : String → Except String Unit :=
  fun p => if p = "in/b.pdf" then .error "PDF file not found: in/b.pdf" else .ok ()

/-- Witness input for C4: the three resolved documents. -/
def pdfsW : List PdfEntry :=
  [⟨"in/a.pdf", "a.pdf", "a"⟩, ⟨"in/b.pdf", "b.pdf", "b"⟩,
   ⟨"in/c.pdf", "c.pdf", "c"⟩]

/-- Witness input for C4: options with concurrency 2. -/
def optsW : BatchOpts := ⟨"out", false, "png", 300, "ara", 2⟩

/-- Witness input for C4: the clock-derived report strings. -/
def ctxW : SummaryCtx := ⟨"date", "66.7", "3.0", "1.0"⟩

/-- Witness for C4 at the spec's scenario: 3 PDFs, 1 failing with a missing
source, concurrency 2 — the batch returns with the fixed summary filename,
and 2 succeeded, 1 failed with the failing filename and message. -/
theorem batchProcessPdfs_isolates_failures_witness :
    batchProcessPdfs convW optsW ctxW (fun _ => "1.0") pdfsW =
      .ok ⟨batchSuccesses convW optsW.outputFolder (fun _ => "1.0") pdfsW,
           batchFailures convW (fun _ => "1.0") pdfsW,
           pathJoin optsW.outputFolder "batch_processing_summary.txt",
           generateSummary
             (batchSuccesses convW optsW.outputFolder (fun _ => "1.0") pdfsW)
             (batchFailures convW (fun _ => "1.0") pdfsW) optsW ctxW⟩ ∧
    (batchSuccesses convW optsW.outputFolder (fun _ => "1.0") pdfsW).length = 2 ∧
    batchFailures convW (fun _ => "1.0") pdfsW =
      [⟨"b.pdf", "PDF file not found: in/b.pdf", "1.0"⟩] :=
  ⟨(batchProcessPdfs_isolates_failures convW optsW ctxW (fun _ => "1.0") pdfsW
      (by decide) (by decide)).1, by decide, by decide⟩

/-! ## FileCleaner (src/cli/file-cleaner.js) -/

/-- Model of JS `String.prototype.endsWith` / a name-suffix regex test. -/
def endsWithB (s suf : String) : Bool := suf.data.isSuffixOf s.data

/-- One directory entry of a retention area: name, last-modified time in ms,
whether it is a directory, and its size in bytes (for a directory, the
recursive size that getDirectorySize computes). -/
structure FCEntry where
  name : String
  mtimeMs : Nat
  isDir : Bool
  size : Nat
  deriving DecidableEq, Repr

/-- Outcome of cleanDirectory: the `cleaned` accumulator (count and bytes),
the names actually removed, and the error strings recorded for entries
whose deletion threw (the source pushes them onto this.stats.errors during
the loop; the callers below append them, preserving order). -/
structure CleanResult where
  count : Nat
  size : Nat
  deleted : List String
  errors : List String
  deriving DecidableEq, Repr

/-- Model of cleanDirectory's per-entry loop. `now` is Date.now();
`tryDelete` models fs.promises.rmdir/unlink per entry name — a thrown
deletion is caught, its message recorded, and the loop continues WITHOUT
counting that entry. A `.gitkeep` entry is skipped; with a pattern
configured, an entry not matching is skipped; an entry qualifies when
now − mtime strictly exceeds maxAgeMs (Int subtraction, as JS numbers).
In dryRun the delete call is skipped but the entry is counted and sized. -/
def cleanDirLoop (now maxAgeMs : Nat) (pattern : Option (String → Bool))
    (dryRun : Bool) (tryDelete : String → Except String Unit) :
    List FCEntry → CleanResult
  | [] => ⟨0, 0, [], []⟩
  | e :: rest =>
    if e.name = ".gitkeep" then
      cleanDirLoop now maxAgeMs pattern dryRun tryDelete rest
    else if (match pattern with | some p => !p e.name | none => false) then
      cleanDirLoop now maxAgeMs pattern dryRun tryDelete rest
    else if (maxAgeMs : Int) < (now : Int) - (e.mtimeMs : Int) then
      let fileSize := e.size
      let r := cleanDirLoop now maxAgeMs pattern dryRun tryDelete rest
      if dryRun then ⟨r.count + 1, r.size + fileSize, r.deleted, r.errors⟩
      else
        match tryDelete e.name with
        | .ok _ => ⟨r.count + 1, r.size + fileSize, e.name :: r.deleted, r.errors⟩
        | .error m => ⟨r.count, r.size, r.deleted, (e.name ++ ": " ++ m) :: r.errors⟩
    else cleanDirLoop now maxAgeMs pattern dryRun tryDelete rest

/-- Model of cleanDirectory: a missing directory (or an enumeration
failure, which no claim exercises) yields the empty result. -/
def cleanDirectory (dirExists : Bool) (listing : List FCEntry)
    (now maxAgeMs : Nat) (pattern : Option (String → Bool)) (dryRun : Bool)
    (tryDelete : String → Except String Unit) : CleanResult :=
  if !dirExists then ⟨0, 0, [], []⟩
  else cleanDirLoop now maxAgeMs pattern dryRun tryDelete listing

/-- The mutable this.stats of a FileCleaner instance. -/
structure FCStats where
  uploadsCleaned : Nat
  outputsCleaned : Nat
  tempsCleaned : Nat
  logsCleaned : Nat
  totalSizeFreed : Nat
  errors : List String
  deriving DecidableEq, Repr

/-- The constructor's stats initialisation (the only place they are reset). -/
def initStats : FCStats := ⟨0, 0, 0, 0, 0, []⟩

/-- The FileCleaner options that drive cleanup. -/
structure FCOptions where
  uploadsRetentionDays : Nat
  outputRetentionDays : Nat
  tempRetentionHours : Nat
  logsRetentionDays : Nat
  dryRun : Bool
  deriving DecidableEq, Repr

/-- The four retention areas' listings (baseDir/uploads, baseDir/output,
baseDir/temp, baseDir/logs). -/
structure AreaFS where
  uploads : List FCEntry
  output : List FCEntry
  temp : List FCEntry
  logs : List FCEntry
  deriving DecidableEq, Repr

/-- The uploads threshold: days, converted as in cleanUploads. -/
def uploadsMaxAgeMs (opts : FCOptions) : Nat :=
  opts.uploadsRetentionDays * 24 * 60 * 60 * 1000

/-- The outputs threshold: days, converted as in cleanOutputs. -/
def outputMaxAgeMs (opts : FCOptions) : Nat :=
  opts.outputRetentionDays * 24 * 60 * 60 * 1000

/-- The temp threshold: hours, converted as in cleanTemp. -/
def tempMaxAgeMs (opts : FCOptions) : Nat :=
  opts.tempRetentionHours * 60 * 60 * 1000

/-- The logs threshold: days, converted as in cleanLogs. -/
def logsMaxAgeMs (opts : FCOptions) : Nat :=
  opts.logsRetentionDays * 24 * 60 * 60 * 1000

/-- The logs filename pattern /\.log$/ of cleanLogs. -/
def logPattern : String → Bool := fun n => endsWithB n ".log"

/-- cleanUploads: days threshold, no pattern; overwrites
stats.uploadsCleaned with this run's count, adds freed bytes, appends
errors. -/
def cleanUploads (opts : FCOptions) (stats : FCStats) (fs : AreaFS) (now : Nat)
    (tryDelete : String → Except String Unit) : FCStats × CleanResult :=
  let r := cleanDirectory true fs.uploads now (uploadsMaxAgeMs opts) none
    opts.dryRun tryDelete
  ({ stats with
      uploadsCleaned := r.count
      totalSizeFreed := stats.totalSizeFreed + r.size
      errors := stats.errors ++ r.errors }, r)

/-- cleanOutputs: days threshold, no pattern; overwrites outputsCleaned. -/
def cleanOutputs (opts : FCOptions) (stats : FCStats) (fs : AreaFS) (now : Nat)
    (tryDelete : String → Except String Unit) : FCStats × CleanResult :=
  let r := cleanDirectory true fs.output now (outputMaxAgeMs opts) none
    opts.dryRun tryDelete
  ({ stats with
      outputsCleaned := r.count
      totalSizeFreed := stats.totalSizeFreed + r.size
      errors := stats.errors ++ r.errors }, r)

/-- cleanTemp: hours threshold, no pattern; overwrites tempsCleaned. -/
def cleanTemp (opts : FCOptions) (stats : FCStats) (fs : AreaFS) (now : Nat)
    (tryDelete : String → Except String Unit) : FCStats × CleanResult :=
  let r := cleanDirectory true fs.temp now (tempMaxAgeMs opts) none
    opts.dryRun tryDelete
  ({ stats with
      tempsCleaned := r.count
      totalSizeFreed := stats.totalSizeFreed + r.size
      errors := stats.errors ++ r.errors }, r)

/-- cleanLogs: days threshold plus the '.log' filename pattern; overwrites
logsCleaned. -/
def cleanLogs (opts : FCOptions) (stats : FCStats) (fs : AreaFS) (now : Nat)
    (tryDelete : String → Except String Unit) : FCStats × CleanResult :=
  let r := cleanDirectory true fs.logs now (logsMaxAgeMs opts) (some logPattern)
    opts.dryRun tryDelete
  ({ stats with
      logsCleaned := r.count
      totalSizeFreed := stats.totalSizeFreed + r.size
      errors := stats.errors ++ r.errors }, r)

/-- Remove the deleted entries from a listing. -/
def removeNames (deleted : List String) (l : List FCEntry) : List FCEntry :=
  l.filter (fun e => !(deleted.contains e.name))

/-- Model of runCleanup: cleans the four areas (Promise.all in the source;
each writes its own count field, and the totalSizeFreed additions and error
pushes commute, so the listed order is an admissible serialization), returns
this.stats; the model also returns the filesystem with the deleted entries
removed, for reasoning about successive runs on one instance. -/
def runCleanup (opts : FCOptions) (stats : FCStats) (fs : AreaFS) (now : Nat)
    (tryDelete : String → Except String Unit) : FCStats × AreaFS :=
  let u := cleanUploads opts stats fs now tryDelete
  let o := cleanOutputs opts u.1 fs now tryDelete
  let t := cleanTemp opts o.1 fs now tryDelete
  let g := cleanLogs opts t.1 fs now tryDelete
  (g.1, ⟨removeNames u.2.deleted fs.uploads, removeNames o.2.deleted fs.output,
    removeNames t.2.deleted fs.temp, removeNames g.2.deleted fs.logs⟩)

/-- The four retention areas. -/
inductive Area where
  | uploads
  | output
  | temp
  | logs
  deriving DecidableEq, Repr

/-- The listing of one area. -/
def areaEntries (fs : AreaFS) : Area → List FCEntry
  | .uploads => fs.uploads
  | .output => fs.output
  | .temp => fs.temp
  | .logs => fs.logs

/-- Dispatch to the four per-area cleaners. -/
def runAreaClean (area : Area) (opts : FCOptions) (stats : FCStats)
    (fs : AreaFS) (now : Nat) (tryDelete : String → Except String Unit) :
    FCStats × CleanResult :=
  match area with
  | .uploads => cleanUploads opts stats fs now tryDelete
  | .output => cleanOutputs opts stats fs now tryDelete
  | .temp => cleanTemp opts stats fs now tryDelete
  | .logs => cleanLogs opts stats fs now tryDelete

/-- The per-entry condition under which cleanDirectory counts (and, outside
dryRun, deletes) an entry, as the code computes it. -/
def shouldClean (now maxAgeMs : Nat) (pattern : Option (String → Bool))
    (e : FCEntry) : Bool :=
  !(e.name == ".gitkeep") &&
  (match pattern with | some p => p e.name | none => true) &&
  decide ((maxAgeMs : Int) < (now : Int) - (e.mtimeMs : Int))

/-- Total size of a list of entries. -/
def sumSizes (l : List FCEntry) : Nat := (l.map (fun e => e.size)).sum

/-- The area's filename pattern, as the claim states it: only the logs area
has one, a '.log' suffix test. -/
def areaPattern : Area → (String → Bool)
  | .logs => fun n => endsWithB n ".log"
  | .uploads => fun _ => true
  | .output => fun _ => true
  | .temp => fun _ => true

/-- The area's age threshold in ms, as the claim states it: hours for the
temp area, days for uploads, outputs and logs. -/
def areaThresholdMs (opts : FCOptions) : Area → Nat
  | .uploads => opts.uploadsRetentionDays * 86400000
  | .output => opts.outputRetentionDays * 86400000
  | .temp => opts.tempRetentionHours * 3600000
  | .logs => opts.logsRetentionDays * 86400000

/-- The claim's per-entry deletion condition (spec side): the entry is not
the reserved placeholder, matches the area's filename pattern when one is
configured, and its age now − mtime strictly exceeds the area's
threshold. -/
def eligibleSpec (opts : FCOptions) (now : Nat) (area : Area) (e : FCEntry) : Bool :=
  !(e.name == ".gitkeep") && areaPattern area e.name &&
  decide ((areaThresholdMs opts area : Int) < (now : Int) - (e.mtimeMs : Int))

theorem cleanDirLoop_spec (now maxAgeMs : Nat) (pattern : Option (String → Bool))
    (dryRun : Bool) (tryDelete : String → Except String Unit)
    (hdel : dryRun = false → ∀ n, tryDelete n = .ok ()) (l : List FCEntry) :
    cleanDirLoop now maxAgeMs pattern dryRun tryDelete l =
      ⟨(l.filter (shouldClean now maxAgeMs pattern)).length,
       sumSizes (l.filter (shouldClean now maxAgeMs pattern)),
       if dryRun then [] else
         (l.filter (shouldClean now maxAgeMs pattern)).map (fun e => e.name),
       []⟩ := by
  induction l with
  | nil => cases dryRun <;> rfl
  | cons e rest ih =>
    simp only [cleanDirLoop]
    by_cases h1 : e.name = ".gitkeep"
    · rw [if_pos h1, ih]
      have hsc : shouldClean now maxAgeMs pattern e = false := by
        simp [shouldClean, h1]
      simp [List.filter_cons, hsc]
    · rw [if_neg h1]
      cases pattern with
      | none =>
        rw [if_neg (by simp)]
        by_cases h3 : (maxAgeMs : Int) < (now : Int) - (e.mtimeMs : Int)
        · rw [if_pos h3]
          have hsc : shouldClean now maxAgeMs none e = true := by
            simp [shouldClean, h1, h3]
          cases hdry : dryRun with
          | true =>
            rw [hdry] at ih
            rw [ih]
            simp [List.filter_cons, hsc, sumSizes, Nat.add_comm]
          | false =>
            rw [hdry] at ih
            rw [hdel hdry e.name, ih]
            simp [List.filter_cons, hsc, sumSizes, Nat.add_comm]
        · rw [if_neg h3, ih]
          have hsc : shouldClean now maxAgeMs none e = false := by
            simp [shouldClean, h3]
          simp [List.filter_cons, hsc]
      | some p =>
        by_cases hp : p e.name = true
        · rw [if_neg (by simp [hp])]
          by_cases h3 : (maxAgeMs : Int) < (now : Int) - (e.mtimeMs : Int)
          · rw [if_pos h3]
            have hsc : shouldClean now maxAgeMs (some p) e = true := by
              simp [shouldClean, h1, hp, h3]
            cases hdry : dryRun with
            | true =>
              rw [hdry] at ih
              rw [ih]
              simp [List.filter_cons, hsc, sumSizes, Nat.add_comm]
            | false =>
              rw [hdry] at ih
              rw [hdel hdry e.name, ih]
              simp [List.filter_cons, hsc, sumSizes, Nat.add_comm]
          · rw [if_neg h3, ih]
            have hsc : shouldClean now maxAgeMs (some p) e = false := by
              simp [shouldClean, h3]
            simp [List.filter_cons, hsc]
        · have hp2 : p e.name = false := by
            revert hp
            cases p e.name <;> simp
          rw [if_pos (by simp [hp2]), ih]
          have hsc : shouldClean now maxAgeMs (some p) e = false := by
            simp [shouldClean, hp2]
          simp [List.filter_cons, hsc]

theorem shouldClean_uploads (opts : FCOptions) (now : Nat) (e : FCEntry) :
    shouldClean now (uploadsMaxAgeMs opts) none e = eligibleSpec opts now .uploads e := by
  have h : uploadsMaxAgeMs opts = opts.uploadsRetentionDays * 86400000 := by
    simp [uploadsMaxAgeMs]
    ring
  simp [shouldClean, eligibleSpec, areaPattern, areaThresholdMs, h]

theorem shouldClean_output (opts : FCOptions) (now : Nat) (e : FCEntry) :
    shouldClean now (outputMaxAgeMs opts) none e = eligibleSpec opts now .output e := by
  have h : outputMaxAgeMs opts = opts.outputRetentionDays * 86400000 := by
    simp [outputMaxAgeMs]
    ring
  simp [shouldClean, eligibleSpec, areaPattern, areaThresholdMs, h]

theorem shouldClean_temp (opts : FCOptions) (now : Nat) (e : FCEntry) :
    shouldClean now (tempMaxAgeMs opts) none e = eligibleSpec opts now .temp e := by
  have h : tempMaxAgeMs opts = opts.tempRetentionHours * 3600000 := by
    simp [tempMaxAgeMs]
    ring
  simp [shouldClean, eligibleSpec, areaPattern, areaThresholdMs, h]

theorem shouldClean_logs (opts : FCOptions) (now : Nat) (e : FCEntry) :
    shouldClean now (logsMaxAgeMs opts) (some logPattern) e =
      eligibleSpec opts now .logs e := by
  have h : logsMaxAgeMs opts = opts.logsRetentionDays * 86400000 := by
    simp [logsMaxAgeMs]
    ring
  simp [shouldClean, eligibleSpec, areaPattern, areaThresholdMs, logPattern, h]

/-- C5: for every entry in a retention area's base directory, the cleaner
counts the entry (and sizes it) and — unless dryRun is set — deletes it, if
and only if the entry's name is not the reserved placeholder `.gitkeep`, it
matches the area's filename pattern when one is configured (only the logs
area has one, a '.log' suffix), and its age now − mtime strictly exceeds the
area's threshold, expressed in hours for the temp area and in days for the
uploads, outputs and logs areas; deletion failures aside (`hdel`), nothing
else is counted, deleted or recorded. -/
theorem cleanDirectory_area_selection (opts : FCOptions) (stats : FCStats)
    (fs : AreaFS) (now : Nat) (tryDelete : String → Except String Unit)
    (area : Area) (hdel : opts.dryRun = false → ∀ n, tryDelete n = .ok ())
    (sr : FCStats × CleanResult)
    (hsr : sr = runAreaClean area opts stats fs now tryDelete) :
    sr.2.count = ((areaEntries fs area).filter (eligibleSpec opts now area)).length ∧
    sr.2.size = sumSizes ((areaEntries fs area).filter (eligibleSpec opts now area)) ∧
    sr.2.deleted = (if opts.dryRun then [] else
      ((areaEntries fs area).filter (eligibleSpec opts now area)).map
        (fun e => e.name)) ∧
    sr.2.errors = [] := by
  subst hsr
  cases area with
  | uploads =>
    simp only [runAreaClean, cleanUploads, cleanDirectory, Bool.not_true,
      Bool.false_eq_true, if_false, cleanDirLoop_spec now (uploadsMaxAgeMs opts)
        none opts.dryRun tryDelete hdel, areaEntries]
    rw [List.filter_congr (fun e _ => shouldClean_uploads opts now e)]
    simp
  | output =>
    simp only [runAreaClean, cleanOutputs, cleanDirectory, Bool.not_true,
      Bool.false_eq_true, if_false, cleanDirLoop_spec now (outputMaxAgeMs opts)
        none opts.dryRun tryDelete hdel, areaEntries]
    rw [List.filter_congr (fun e _ => shouldClean_output opts now e)]
    simp
  | temp =>
    simp only [runAreaClean, cleanTemp, cleanDirectory, Bool.not_true,
      Bool.false_eq_true, if_false, cleanDirLoop_spec now (tempMaxAgeMs opts)
        none opts.dryRun tryDelete hdel, areaEntries]
    rw [List.filter_congr (fun e _ => shouldClean_temp opts now e)]
    simp
  | logs =>
    simp only [runAreaClean, cleanLogs, cleanDirectory, Bool.not_true,
      Bool.false_eq_true, if_false, cleanDirLoop_spec now (logsMaxAgeMs opts)
        (some logPattern) opts.dryRun tryDelete hdel, areaEntries]
    rw [List.filter_congr (fun e _ => shouldClean_logs opts now e)]
    simp

/-- Witness for C5: the temp area (hours threshold) with an old folder, a
fresh file and the placeholder; only the old folder is counted and deleted. -/
theorem cleanDirectory_area_selection_witness :
    (runAreaClean .temp ⟨1, 7, 2, 30, false⟩ initStats
        ⟨[], [], [⟨"old_job", 0, true, 500⟩, ⟨"fresh_job", 10000000, false, 100⟩,
          ⟨".gitkeep", 0, false, 1⟩], []⟩ 10800000
        (fun _ => .ok ())).2.count =
      ((areaEntries ⟨[], [], [⟨"old_job", 0, true, 500⟩,
          ⟨"fresh_job", 10000000, false, 100⟩, ⟨".gitkeep", 0, false, 1⟩], []⟩
        .temp).filter (eligibleSpec ⟨1, 7, 2, 30, false⟩ 10800000 .temp)).length :=
  (cleanDirectory_area_selection ⟨1, 7, 2, 30, false⟩ initStats
    ⟨[], [], [⟨"old_job", 0, true, 500⟩, ⟨"fresh_job", 10000000, false, 100⟩,
      ⟨".gitkeep", 0, false, 1⟩], []⟩ 10800000 (fun _ => .ok ()) .temp
    (fun _ _ => rfl) _ rfl).1

/-- The uploads entries one run selects. -/
def uploadsSel (opts : FCOptions) (fs : AreaFS) (now : Nat) : List FCEntry :=
  fs.uploads.filter (shouldClean now (uploadsMaxAgeMs opts) none)

/-- The outputs entries one run selects. -/
def outputSel (opts : FCOptions) (fs : AreaFS) (now : Nat) : List FCEntry :=
  fs.output.filter (shouldClean now (outputMaxAgeMs opts) none)

/-- The temp entries one run selects. -/
def tempSel (opts : FCOptions) (fs : AreaFS) (now : Nat) : List FCEntry :=
  fs.temp.filter (shouldClean now (tempMaxAgeMs opts) none)

/-- The logs entries one run selects. -/
def logsSel (opts : FCOptions) (fs : AreaFS) (now : Nat) : List FCEntry :=
  fs.logs.filter (shouldClean now (logsMaxAgeMs opts) (some logPattern))

/-- The bytes one runCleanup accounts as freed (dry-run included). -/
def runFreed (opts : FCOptions) (fs : AreaFS) (now : Nat) : Nat :=
  sumSizes (uploadsSel opts fs now) + sumSizes (outputSel opts fs now) +
    sumSizes (tempSel opts fs now) + sumSizes (logsSel opts fs now)

/-- Closed form of one runCleanup call when deletions succeed (`hdel`; in
dry-run the delete call never happens, so the hypothesis is vacuous): the
per-area counts are overwritten with this run's counts, totalSizeFreed and
errors only grow, and the filesystem loses exactly the selected entries —
none in dry-run. -/
theorem runCleanup_eq (opts : FCOptions) (stats : FCStats) (fs : AreaFS)
    (now : Nat) (tryDelete : String → Except String Unit)
    (hdel : opts.dryRun = false → ∀ n, tryDelete n = .ok ()) :
    runCleanup opts stats fs now tryDelete =
      (⟨(uploadsSel opts fs now).length, (outputSel opts fs now).length,
        (tempSel opts fs now).length, (logsSel opts fs now).length,
        stats.totalSizeFreed + runFreed opts fs now, stats.errors⟩,
       if opts.dryRun then fs else
         ⟨removeNames ((uploadsSel opts fs now).map (fun e => e.name)) fs.uploads,
          removeNames ((outputSel opts fs now).map (fun e => e.name)) fs.output,
          removeNames ((tempSel opts fs now).map (fun e => e.name)) fs.temp,
          removeNames ((logsSel opts fs now).map (fun e => e.name)) fs.logs⟩) := by
  simp only [runCleanup, cleanUploads, cleanOutputs, cleanTemp, cleanLogs,
    cleanDirectory, Bool.not_true, Bool.false_eq_true, if_false,
    cleanDirLoop_spec _ _ _ _ _ hdel, uploadsSel, outputSel, tempSel, logsSel,
    runFreed]
  cases hdry : opts.dryRun with
  | true =>
    simp only [if_true]
    refine Prod.ext ?_ ?_
    · simp [Nat.add_assoc]
    · simp [removeNames]
  | false =>
    simp only [Bool.false_eq_true, if_false]
    refine Prod.ext ?_ ?_
    · simp [Nat.add_assoc]
    · simp [removeNames]

/-- Counterexample options for C6: dry-run with default retentions. -/
def optsC6 : FCOptions := ⟨1, 7, 2, 30, true⟩

/-- Counterexample filesystem for C6: one two-day-old 100-byte upload. -/
def fsC6 : AreaFS := ⟨[⟨"old.txt", 0, false, 100⟩], [], [], []⟩

/-- C6 counterexample: running the cleaner in dry-run mode twice in a row on
the same instance does NOT produce identical CleanupStats — the first dry
run reports 100 bytes freed, and the second reports 200, because a dry run
still adds its accounted size to the instance's stats. -/
theorem dryRun_second_run_differs :
    (runCleanup optsC6 initStats fsC6 172800000 (fun _ => .ok ())).1.totalSizeFreed
      = 100 ∧
    (runCleanup optsC6
      (runCleanup optsC6 initStats fsC6 172800000 (fun _ => .ok ())).1
      (runCleanup optsC6 initStats fsC6 172800000 (fun _ => .ok ())).2
      172800000 (fun _ => .ok ())).1.totalSizeFreed = 200 ∧
    ¬((runCleanup optsC6 initStats fsC6 172800000 (fun _ => .ok ())).1 =
      (runCleanup optsC6
        (runCleanup optsC6 initStats fsC6 172800000 (fun _ => .ok ())).1
        (runCleanup optsC6 initStats fsC6 172800000 (fun _ => .ok ())).2
        172800000 (fun _ => .ok ())).1) := by decide

/-- C6 (amended): a dry run deletes nothing — the filesystem is unchanged
after one and after two dry runs — and it performs the identical traversal,
age checks and size accounting a real run would (same four per-area counts
and same totalSizeFreed as the real run from the same stats); but a dry run
still mutates the instance's stats: a second dry run reproduces the
per-area counts and errors while totalSizeFreed grows by the same amount
again (second total + initial total = twice the first total), so the two
dry runs' CleanupStats coincide exactly when the first accounted zero
bytes. -/
theorem dryRun_cleanup (opts : FCOptions) (s0 : FCStats) (fs : AreaFS)
    (now : Nat) (tryDelete : String → Except String Unit)
    (hdry : opts.dryRun = true) (r1 r2 : FCStats × AreaFS)
    (h1 : r1 = runCleanup opts s0 fs now tryDelete)
    (h2 : r2 = runCleanup opts r1.1 r1.2 now tryDelete) :
    r1.2 = fs ∧ r2.2 = fs ∧
    r1.1.uploadsCleaned = (runCleanup { opts with dryRun := false } s0 fs now
      (fun _ => .ok ())).1.uploadsCleaned ∧
    r1.1.outputsCleaned = (runCleanup { opts with dryRun := false } s0 fs now
      (fun _ => .ok ())).1.outputsCleaned ∧
    r1.1.tempsCleaned = (runCleanup { opts with dryRun := false } s0 fs now
      (fun _ => .ok ())).1.tempsCleaned ∧
    r1.1.logsCleaned = (runCleanup { opts with dryRun := false } s0 fs now
      (fun _ => .ok ())).1.logsCleaned ∧
    r1.1.totalSizeFreed = (runCleanup { opts with dryRun := false } s0 fs now
      (fun _ => .ok ())).1.totalSizeFreed ∧
    r2.1.uploadsCleaned = r1.1.uploadsCleaned ∧
    r2.1.outputsCleaned = r1.1.outputsCleaned ∧
    r2.1.tempsCleaned = r1.1.tempsCleaned ∧
    r2.1.logsCleaned = r1.1.logsCleaned ∧
    r2.1.errors = r1.1.errors ∧
    r2.1.totalSizeFreed + s0.totalSizeFreed = 2 * r1.1.totalSizeFreed ∧
    (r1.1.totalSizeFreed = s0.totalSizeFreed → r2.1 = r1.1) := by
  have hd1 : opts.dryRun = false → ∀ n, tryDelete n = Except.ok () := by
    intro hfalse
    rw [hdry] at hfalse
    cases hfalse
  have hsel : ∀ (g : AreaFS) (t : Nat),
      uploadsSel { opts with dryRun := false } g t = uploadsSel opts g t ∧
      outputSel { opts with dryRun := false } g t = outputSel opts g t ∧
      tempSel { opts with dryRun := false } g t = tempSel opts g t ∧
      logsSel { opts with dryRun := false } g t = logsSel opts g t :=
    fun g t => ⟨rfl, rfl, rfl, rfl⟩
  subst h1 h2
  rw [runCleanup_eq opts s0 fs now tryDelete hd1]
  simp only [hdry, if_true]
  rw [runCleanup_eq opts _ fs now tryDelete hd1]
  simp only [hdry, if_true]
  rw [runCleanup_eq { opts with dryRun := false } s0 fs now (fun _ => Except.ok ())
    (fun _ n => rfl)]
  obtain ⟨hu, ho, ht, hg⟩ := hsel fs now
  have hfr : runFreed { opts with dryRun := false } fs now = runFreed opts fs now := by
    simp [runFreed, hu, ho, ht, hg]
  refine ⟨trivial, trivial, ?_, ?_, ?_, ?_, ?_, trivial, trivial, trivial,
    trivial, trivial, ?_, ?_⟩
  · simp [hu]
  · simp [ho]
  · simp [ht]
  · simp [hg]
  · simp [hfr]
  · omega
  · intro h0
    have hF : runFreed opts fs now = 0 := by omega
    simp [hF]

/-- Witness for the amended C6 at a concrete dry-run configuration. -/
theorem dryRun_cleanup_witness :
    (runCleanup optsC6 initStats fsC6 172800000 (fun _ => .ok ())).2 = fsC6 :=
  (dryRun_cleanup optsC6 initStats fsC6 172800000 (fun _ => .ok ()) rfl _ _
    rfl rfl).1

/-- C10: on one FileCleaner instance, totalSizeFreed and errors accumulate
across successive runCleanup calls while the four per-area cleaned counts
are overwritten each run: starting from the constructor's stats, the first
run reports its own freed bytes, the second run reports the SUM of both
runs' freed bytes (never a reset), its per-area counts are the second run's
alone, and when the first run freed anything the second run's report
strictly exceeds what the second run alone freed. (Deletions succeed,
`hdel`; the second run sees the filesystem the first run left behind.) -/
theorem stats_accumulate_across_runs (opts : FCOptions) (fs : AreaFS)
    (now1 now2 : Nat) (tryDelete : String → Except String Unit)
    (hdel : ∀ n, tryDelete n = .ok ()) (r1 r2 : FCStats × AreaFS)
    (h1 : r1 = runCleanup opts initStats fs now1 tryDelete)
    (h2 : r2 = runCleanup opts r1.1 r1.2 now2 tryDelete) :
    r1.1.totalSizeFreed = runFreed opts fs now1 ∧
    r2.1.totalSizeFreed = runFreed opts fs now1 + runFreed opts r1.2 now2 ∧
    r2.1.uploadsCleaned = (uploadsSel opts r1.2 now2).length ∧
    r2.1.outputsCleaned = (outputSel opts r1.2 now2).length ∧
    r2.1.tempsCleaned = (tempSel opts r1.2 now2).length ∧
    r2.1.logsCleaned = (logsSel opts r1.2 now2).length ∧
    r2.1.errors = [] ∧
    (0 < runFreed opts fs now1 →
      runFreed opts r1.2 now2 < r2.1.totalSizeFreed) := by
  have hd : opts.dryRun = false → ∀ n, tryDelete n = Except.ok () :=
    fun _ => hdel
  subst h1 h2
  rw [runCleanup_eq opts initStats fs now1 tryDelete hd,
    runCleanup_eq opts _ _ now2 tryDelete hd]
  simp only [initStats]
  refine ⟨by simp, by simp, by simp, by simp, by simp, by simp, by simp, ?_⟩
  intro hpos
  simp
  omega

/-- Witness for C10 at a concrete instance: an old upload survives neither
run (deleted in run 1), yet run 2 still reports run 1's bytes in its
total. -/
theorem stats_accumulate_across_runs_witness :
    ((runCleanup ⟨1, 7, 2, 30, false⟩ initStats
        ⟨[⟨"old.txt", 0, false, 100⟩], [], [], []⟩ 172800000
        (fun _ => .ok ())).1).totalSizeFreed =
      runFreed ⟨1, 7, 2, 30, false⟩ ⟨[⟨"old.txt", 0, false, 100⟩], [], [], []⟩
        172800000 :=
  (stats_accumulate_across_runs ⟨1, 7, 2, 30, false⟩
    ⟨[⟨"old.txt", 0, false, 100⟩], [], [], []⟩ 172800000 172800000
    (fun _ => .ok ()) (fun _ => rfl) _ _ rfl rfl).1
